import Mathlib

/-!
Shallow embedding of `src/api_benchmark.py` (class `OpenAIBenchmark`).

The program loads a YAML configuration listing providers (each with a name,
credentials and a list of models), rejects duplicate provider names, builds
one OpenAI client per provider, and then benchmarks every provider/model
pair concurrently: each probe issues one timed chat-completion call, counts
tokens with the `len(text) // 4` heuristic, and computes `speed =
total_tokens / duration`.  Results are collected into a dict keyed by
`"{provider}/{model_name}"`; failures are caught per task and recorded as
`{'speed': 0, 'tokens': 0, 'status': 'failed: <msg>'}`.  After all tasks
resolve, a log holding the results and the successful responses is saved.

External effects are embedded explicitly:
* the network call of `_test_single_model` (and the wall-clock duration
  measured around it) is an oracle `Env : BenchmarkTask → CallResult`;
* the completion order produced by `as_completed` is an explicit list
  `order`, constrained in theorems to be a permutation of the task list;
* the file write of `_save_log` is recorded in the `savedLogs` field of the
  run's output instead of touching a filesystem.

Real numbers (Python floats) are idealised as `ℚ`.
-/

/-- One entry of a provider's `models` list: `{name, params}`.  The request
parameters are forwarded verbatim and never inspected, so they are embedded
as an opaque association list. -/
structure ModelSpec where
  name : String
  params : List (String × String)
deriving Repr, DecidableEq

/-- One entry of the configuration's `providers` list. -/
structure ProviderConfig where
  name : String
  api_key : String
  base_url : Option String
  models : List ModelSpec
deriving Repr, DecidableEq

/-- The parsed YAML configuration: top-level keys `providers` and
`test_prompt`. -/
structure Config where
  providers : List ProviderConfig
  test_prompt : String
deriving Repr, DecidableEq

/-- A client handle as constructed in `__init__`: `openai.OpenAI(api_key=...,
base_url=...)`.  No network activity happens at construction, so the handle
is just its configuration. -/
structure Client where
  api_key : String
  base_url : Option String
deriving Repr, DecidableEq

/-- One unit of work of `run_benchmark`: the dict
`{'provider': ..., 'model_name': ..., 'params': ...}` built at lines
117-123. -/
structure BenchmarkTask where
  provider : String
  model_name : String
  params : List (String × String)
deriving Repr, DecidableEq

/-- One value of the `results` dict of `run_benchmark`: `speed`, `tokens`,
`status`, and the `response` key that is present exactly in the success
branch (lines 142-153).  The optional key is embedded as an `Option`. -/
structure ResultEntry where
  speed : ℚ
  tokens : ℕ
  status : String
  response : Option String
deriving Repr, DecidableEq

deriving instance DecidableEq for Except

/-- The outside world seen by one probe: the outcome of the
`client.chat.completions.create` call (either the raised exception's message
or the completion text `response.choices[0].message.content`), together with
the wall-clock duration `time.perf_counter() - start_time` measured around
the call. -/
structure CallResult where
  outcome : Except String String
  duration : ℚ
deriving Repr, DecidableEq

/-- The oracle assigning to each task the behaviour of its external call. -/
def Env : Type := BenchmarkTask → CallResult

/-- The list `provider_names = [p['name'] for p in self.config['providers']]`
(line 24). -/
def providerNames (cfg : Config) : List String :=
  cfg.providers.map (fun p => p.name)

/-- The set comprehension of line 26,
`{name for name in provider_names if provider_names.count(name) > 1}`,
enumerated in first-occurrence order. -/
def duplicateNames (cfg : Config) : List String :=
  ((providerNames cfg).filter
    (fun n => 1 < (providerNames cfg).count n)).dedup

/-- Embeds `OpenAIBenchmark.__init__` after the configuration is parsed (lines
23-34): reject duplicate provider names with a `ValueError` whose message
joins the duplicated names, then build the per-provider client registry.
The error is raised before any client is constructed, so the error branch
produces no registry. -/
def benchInit (cfg : Config) : Except String (List (String × Client)) :=
  let provider_names := providerNames cfg
  if provider_names.length ≠ provider_names.dedup.length then
    Except.error ("发现重复的provider名称: " ++
      String.intercalate ", " (duplicateNames cfg))
  else
    Except.ok (cfg.providers.map (fun p => (p.name, ⟨p.api_key, p.base_url⟩)))

/-- Embeds `_count_tokens` (line 46): `len(text) // 4`. -/
def count_tokens (text : String) : ℕ :=
  text.length / 4

/-- Embeds `_test_single_model` (lines 48-83), with the external call and the
measured duration supplied by `call`.  If the call raises, the exception
propagates (the prober catches nothing).  Otherwise tokens are counted for
prompt and completion and `speed = total_tokens / duration` is computed;
Python raises `ZeroDivisionError('float division by zero')` when `duration`
is exactly `0.0`, and that exception likewise propagates. -/
def test_single_model (prompt : String) (call : CallResult) :
    Except String (ℚ × ℕ × String) :=
  match call.outcome with
  | Except.error e => Except.error e
  | Except.ok content =>
      let prompt_tokens := count_tokens prompt
      let completion_tokens := count_tokens content
      let total_tokens := prompt_tokens + completion_tokens
      if call.duration = 0 then
        Except.error "float division by zero"
      else
        Except.ok ((total_tokens : ℚ) / call.duration, total_tokens, content)

/-- Python's `round` to the nearest integer with ties to even, on the
idealised rational value. -/
def roundHalfEven (q : ℚ) : ℤ :=
  let f := ⌊q⌋
  let r := q - (f : ℚ)
  if r < 1 / 2 then f
  else if 1 / 2 < r then f + 1
  else if f % 2 = 0 then f else f + 1

/-- Embeds `round(speed, 2)` (line 143). -/
def pyRound2 (q : ℚ) : ℚ :=
  (roundHalfEven (q * 100) : ℚ) / 100

/-- The task list of `run_benchmark` (lines 116-123): the cross-product of
every provider's every model, in configuration order. -/
def buildTasks (cfg : Config) : List BenchmarkTask :=
  cfg.providers.flatMap
    (fun p => p.models.map (fun m => ⟨p.name, m.name, m.params⟩))

/-- The key under which a task's outcome is recorded (line 134):
`f"{task['provider']}/{task['model_name']}"`. -/
def taskKey (t : BenchmarkTask) : String :=
  t.provider ++ "/" ++ t.model_name

/-- Assignment `d[k] = v` on a Python dict embedded as an association list:
an existing key keeps its position and gets the new value, a new key is
appended. -/
def dictInsert (m : List (String × ResultEntry)) (k : String)
    (v : ResultEntry) : List (String × ResultEntry) :=
  if m.any (fun p => p.1 = k) then
    m.map (fun p => if p.1 = k then (k, v) else p)
  else
    m ++ [(k, v)]

/-- The body of the `for future in as_completed(futures)` loop (lines
138-153) for one completed task: `future.result()` re-raises whatever the
probe raised, the `try`/`except Exception` records either the success entry
(with the `response` key) or the failure entry (without it). -/
def resultForTask (cfg : Config) (env : Env) (t : BenchmarkTask) :
    ResultEntry :=
  match test_single_model cfg.test_prompt (env t) with
  | Except.ok (speed, tokens, response) =>
      ⟨pyRound2 speed, tokens, "success", some response⟩
  | Except.error e =>
      ⟨0, 0, "failed: " ++ e, none⟩

/-- The `results` dict after the completion loop, processing tasks in the
completion order `order` (a permutation of `buildTasks cfg`). -/
def run_results (cfg : Config) (env : Env) (order : List BenchmarkTask) :
    List (String × ResultEntry) :=
  order.foldl
    (fun m t => dictInsert m (taskKey t) (resultForTask cfg env t)) []

/-- The `responses` dict built at lines 156-160:
`{model: data.get('response', '') for model, data in results.items()
if data['status'] == 'success'}`. -/
def responsesOf (results : List (String × ResultEntry)) :
    List (String × String) :=
  (results.filter (fun p => p.2.status = "success")).map
    (fun p => (p.1, p.2.response.getD ""))

/-- The document handed to `_save_log` (lines 92-96), minus the wall-clock
timestamp. -/
structure BenchmarkLog where
  results : List (String × ResultEntry)
  responses : List (String × String)
deriving Repr, DecidableEq

/-- What one call to `run_benchmark` produces: its return value and the
sequence of logs it saved. -/
structure RunOutput where
  results : List (String × ResultEntry)
  savedLogs : List BenchmarkLog
deriving Repr, DecidableEq

/-- Embeds `run_benchmark` (lines 108-163): build the results dict over the
completion order, then save exactly one log holding the results and the
successful responses, then return the results. -/
def run_benchmark (cfg : Config) (env : Env) (order : List BenchmarkTask) :
    RunOutput :=
  let results := run_results cfg env order
  { results := results
    savedLogs := [⟨results, responsesOf results⟩] }

/-! ### Structural lemmas about the results dict -/

/-- Every pair in `dictInsert m k v` is either an old pair of `m` or the
inserted pair. -/
lemma mem_dictInsert {m : List (String × ResultEntry)} {k : String}
    {v : ResultEntry} {p : String × ResultEntry}
    (hp : p ∈ dictInsert m k v) : p ∈ m ∨ p = (k, v) := by
  unfold dictInsert at hp
  by_cases h : m.any (fun q => q.1 = k)
  · rw [if_pos h] at hp
    obtain ⟨q, hq, hfq⟩ := List.mem_map.1 hp
    by_cases hk : q.1 = k
    · right; rw [if_pos hk] at hfq; exact hfq.symm
    · left; rw [if_neg hk] at hfq; exact hfq ▸ hq
  · rw [if_neg h] at hp
    rcases List.mem_append.1 hp with h1 | h1
    · exact Or.inl h1
    · exact Or.inr (List.mem_singleton.1 h1)

/-- Updating a present key leaves the key list unchanged; a fresh key is
appended to it. -/
lemma map_fst_dictInsert (m : List (String × ResultEntry)) (k : String)
    (v : ResultEntry) :
    (dictInsert m k v).map Prod.fst =
      if k ∈ m.map Prod.fst then m.map Prod.fst
      else m.map Prod.fst ++ [k] := by
  have hany : (m.any (fun q => q.1 = k)) = true ↔ k ∈ m.map Prod.fst := by
    constructor
    · intro h
      obtain ⟨q, hq, hqk⟩ := List.any_eq_true.1 h
      exact List.mem_map.2 ⟨q, hq, by simpa using hqk⟩
    · intro h
      obtain ⟨q, hq, hqk⟩ := List.mem_map.1 h
      exact List.any_eq_true.2 ⟨q, hq, by simpa using hqk⟩
  unfold dictInsert
  by_cases h : m.any (fun q => q.1 = k)
  · rw [if_pos h, if_pos (hany.1 h), List.map_map]
    refine List.map_congr_left (fun q _ => ?_)
    by_cases hk : q.1 = k
    · simp [hk]
    · simp [hk]
  · rw [if_neg h, if_neg (fun hm => h (hany.2 hm))]
    simp

/-- Inserting a fresh key appends the pair. -/
lemma dictInsert_fresh {m : List (String × ResultEntry)} {k : String}
    (v : ResultEntry) (hk : k ∉ m.map Prod.fst) :
    dictInsert m k v = m ++ [(k, v)] := by
  have hany : (m.any (fun q => q.1 = k)) = false := by
    rw [List.any_eq_false]
    intro q hq hqk
    exact hk (List.mem_map.2 ⟨q, hq, by simpa using hqk⟩)
  unfold dictInsert
  rw [hany]
  simp

/-- The map `dictInsert` preserves distinctness of the keys. -/
lemma nodup_keys_dictInsert {m : List (String × ResultEntry)} {k : String}
    {v : ResultEntry} (h : (m.map Prod.fst).Nodup) :
    ((dictInsert m k v).map Prod.fst).Nodup := by
  rw [map_fst_dictInsert]
  by_cases hk : k ∈ m.map Prod.fst
  · rwa [if_pos hk]
  · rw [if_neg hk, List.nodup_append]
    refine ⟨h, List.nodup_singleton k, ?_⟩
    intro a ha hb
    rw [List.mem_singleton] at hb
    subst hb
    exact hk ha

/-- The results dict always has pairwise-distinct keys, whatever the
completion order. -/
lemma run_results_keys_nodup (cfg : Config) (env : Env)
    (order : List BenchmarkTask) :
    ((run_results cfg env order).map Prod.fst).Nodup := by
  suffices h : ∀ (l : List BenchmarkTask) (m : List (String × ResultEntry)),
      (m.map Prod.fst).Nodup →
      ((l.foldl
        (fun m t => dictInsert m (taskKey t) (resultForTask cfg env t))
        m).map Prod.fst).Nodup by
    exact h order [] (by simp)
  intro l
  induction l with
  | nil => intro m hm; simpa using hm
  | cons t rest ih =>
      intro m hm
      exact ih _ (nodup_keys_dictInsert hm)

/-- Every pair of the results dict was produced by some task of the
completion order. -/
lemma run_results_entries (cfg : Config) (env : Env)
    (order : List BenchmarkTask) :
    ∀ p ∈ run_results cfg env order,
      ∃ t ∈ order, p = (taskKey t, resultForTask cfg env t) := by
  suffices h : ∀ (l : List BenchmarkTask) (m : List (String × ResultEntry)),
      ∀ p ∈ l.foldl
          (fun m t => dictInsert m (taskKey t) (resultForTask cfg env t)) m,
        p ∈ m ∨ ∃ t ∈ l, p = (taskKey t, resultForTask cfg env t) by
    intro p hp
    rcases h order [] p hp with h1 | h1
    · simp at h1
    · exact h1
  intro l
  induction l with
  | nil => intro m p hp; exact Or.inl hp
  | cons t rest ih =>
      intro m p hp
      rcases ih _ p hp with h1 | h1
      · rcases mem_dictInsert h1 with h2 | h2
        · exact Or.inl h2
        · exact Or.inr ⟨t, List.mem_cons_self t rest, h2⟩
      · obtain ⟨t', ht', hp'⟩ := h1
        exact Or.inr ⟨t', List.mem_cons_of_mem t ht', hp'⟩

/-- When the task keys are pairwise distinct, the results dict is exactly
one pair per task, in completion order. -/
lemma run_results_eq_map (cfg : Config) (env : Env)
    (order : List BenchmarkTask)
    (hnodup : (order.map taskKey).Nodup) :
    run_results cfg env order =
      order.map (fun t => (taskKey t, resultForTask cfg env t)) := by
  suffices h : ∀ (l : List BenchmarkTask) (m : List (String × ResultEntry)),
      (m.map Prod.fst ++ l.map taskKey).Nodup →
      l.foldl
          (fun m t => dictInsert m (taskKey t) (resultForTask cfg env t)) m =
        m ++ l.map (fun t => (taskKey t, resultForTask cfg env t)) by
    simpa using h order [] (by simpa using hnodup)
  intro l
  induction l with
  | nil => intro m _; simp
  | cons t rest ih =>
      intro m hm
      have hk : taskKey t ∉ m.map Prod.fst := by
        intro hmem
        rcases List.nodup_append.1 hm with ⟨_, _, hdisj⟩
        exact hdisj hmem (by simp)
      have hstep := dictInsert_fresh (m := m) (resultForTask cfg env t) hk
      simp only [List.foldl_cons, hstep]
      rw [ih (m ++ [(taskKey t, resultForTask cfg env t)]) ?_]
      · simp
      · simp only [List.map_append, List.map_cons] at hm ⊢
        simpa [List.append_assoc] using hm

/-- A key already present in the accumulator survives the rest of the
completion loop. -/
lemma key_mem_foldl (cfg : Config) (env : Env) (l : List BenchmarkTask)
    (m : List (String × ResultEntry)) (k : String)
    (hk : k ∈ m.map Prod.fst) :
    k ∈ ((l.foldl
        (fun m t => dictInsert m (taskKey t) (resultForTask cfg env t))
        m).map Prod.fst) := by
  induction l generalizing m with
  | nil => simpa using hk
  | cons t rest ih =>
      refine ih _ ?_
      rw [map_fst_dictInsert]
      by_cases h : taskKey t ∈ m.map Prod.fst
      · rwa [if_pos h]
      · rw [if_neg h]; exact List.mem_append_left _ hk

/-- Every task of the completion order ends up with an entry under its key,
even when keys collide (the colliding tasks then share the entry). -/
lemma run_results_key_total (cfg : Config) (env : Env)
    (order : List BenchmarkTask) :
    ∀ t ∈ order, ∃ e : ResultEntry,
      (taskKey t, e) ∈ run_results cfg env order := by
  suffices h : ∀ (l : List BenchmarkTask) (m : List (String × ResultEntry)),
      ∀ t ∈ l, taskKey t ∈
        ((l.foldl
          (fun m t => dictInsert m (taskKey t) (resultForTask cfg env t))
          m).map Prod.fst) by
    intro t ht
    obtain ⟨p, hp, hpk⟩ := List.mem_map.1 (h order [] t ht)
    exact ⟨p.2, by rwa [show (taskKey t, p.2) = p from Prod.ext hpk.symm rfl]⟩
  intro l
  induction l with
  | nil => intro m t ht; simp at ht
  | cons u rest ih =>
      intro m t ht
      rcases List.mem_cons.1 ht with h1 | h1
      · subst h1
        refine key_mem_foldl cfg env rest _ _ ?_
        rw [map_fst_dictInsert]
        by_cases h : taskKey t ∈ m.map Prod.fst
        · rwa [if_pos h]
        · rw [if_neg h]; simp
      · exact ih _ t h1

/-- With pairwise-distinct keys a key determines its entry. -/
lemma entry_unique_of_nodup_keys {rs : List (String × ResultEntry)}
    (h : (rs.map Prod.fst).Nodup) {k : String} {a b : ResultEntry}
    (ha : (k, a) ∈ rs) (hb : (k, b) ∈ rs) : a = b := by
  induction rs with
  | nil => simp at ha
  | cons p rest ih =>
      simp only [List.map_cons, List.nodup_cons] at h
      rcases List.mem_cons.1 ha with h1 | h1 <;>
        rcases List.mem_cons.1 hb with h2 | h2
      · exact congrArg Prod.snd (h1.trans h2.symm)
      · exfalso
        exact h.1 (List.mem_map.2 ⟨(k, b), h2, by rw [← h1]⟩)
      · exfalso
        exact h.1 (List.mem_map.2 ⟨(k, a), h1, by rw [← h2]⟩)
      · exact ih h.2 h1 h2

/-- A failure status is never the success status: the two strings differ in
length. -/
lemma failed_ne_success (m : String) : "failed: " ++ m ≠ "success" := by
  intro h
  have h2 := congrArg String.length h
  rw [String.length_append] at h2
  have h3 : "failed: ".length = 8 := rfl
  have h4 : "success".length = 7 := rfl
  omega

/-- Evaluation of one success probe: the success branch of
`test_single_model` for a nonzero duration. -/
lemma test_single_model_ok (prompt content : String) (d : ℚ) (hd : d ≠ 0) :
    test_single_model prompt ⟨Except.ok content, d⟩ =
      Except.ok
        (((count_tokens prompt + count_tokens content : ℕ) : ℚ) / d,
          count_tokens prompt + count_tokens content, content) := by
  simp [test_single_model, hd]

/-- Evaluation of one failing probe: an exception of the external call
propagates out of `test_single_model`. -/
lemma test_single_model_error (prompt msg : String) (d : ℚ) :
    test_single_model prompt ⟨Except.error msg, d⟩ = Except.error msg := rfl

/-! ### Concrete configurations used as witnesses and counterexamples -/

/-- Two distinct providers with one model each. -/
def cfgTwo : Config :=
  ⟨[⟨"p1", "k1", none, [⟨"m1", []⟩]⟩,
    ⟨"p2", "k2", some "u", [⟨"m2", []⟩]⟩], "Hello"⟩

/-- Oracle for `cfgTwo`: the probe of provider `p1` succeeds in one second,
the probe of provider `p2` raises an exception with message `boom`. -/
def envMix : Env := fun t =>
  if t.provider = "p1" then ⟨Except.ok "World!", 1⟩
  else ⟨Except.error "boom", 1⟩

/-- One provider listing the SAME model name twice: the duplicate-provider
check does not reject this, but both tasks share the key `p/m`. -/
def cfgDup : Config :=
  ⟨[⟨"p", "key", none, [⟨"m", []⟩, ⟨"m", []⟩]⟩], "Hello"⟩

/-- One provider, one model. -/
def cfgOne : Config :=
  ⟨[⟨"p", "key", none, [⟨"m", []⟩]⟩], "Hello"⟩

/-- Every probe succeeds with completion `World!` after one second. -/
def envOk : Env := fun _ => ⟨Except.ok "World!", 1⟩

/-- Every probe succeeds with completion `World!`, but the measured
duration is `-1` (a degenerate measurement). -/
def envNeg : Env := fun _ => ⟨Except.ok "World!", -1⟩

/-- Every probe succeeds with completion `World!`, but the measured
duration is exactly `0` (an instant backend). -/
def envZero : Env := fun _ => ⟨Except.ok "World!", 0⟩

/-- Two providers that share the name `p1`. -/
def cfgDupName : Config :=
  ⟨[⟨"p1", "k1", none, []⟩, ⟨"p1", "k2", none, []⟩], "hi"⟩

/-- A configuration with an empty provider list. -/
def cfgEmpty : Config := ⟨[], "hi"⟩

/-- A successful probe with a nonzero duration is recorded as a `success`
entry carrying the rounded speed, the token total and the completion
text. -/
lemma resultForTask_ok (cfg : Config) (env : Env) (t : BenchmarkTask)
    (content : String) (d : ℚ) (henv : env t = ⟨Except.ok content, d⟩)
    (hd : d ≠ 0) :
    resultForTask cfg env t =
      ⟨pyRound2
          (((count_tokens cfg.test_prompt + count_tokens content : ℕ) : ℚ)
            / d),
        count_tokens cfg.test_prompt + count_tokens content, "success",
        some content⟩ := by
  unfold resultForTask
  rw [henv, test_single_model_ok cfg.test_prompt content d hd]

/-- A probe whose external call raises is recorded as a failure entry with
zeroed metrics, the `failed: `-prefixed message, and no response. -/
lemma resultForTask_error (cfg : Config) (env : Env) (t : BenchmarkTask)
    (msg : String) (henv : (env t).outcome = Except.error msg) :
    resultForTask cfg env t = ⟨0, 0, "failed: " ++ msg, none⟩ := by
  unfold resultForTask test_single_model
  rw [henv]

/-- A successful probe measured at duration exactly `0` raises
`ZeroDivisionError` inside the prober; the runner's catch-all records it as
a failure entry. -/
lemma resultForTask_zero (cfg : Config) (env : Env) (t : BenchmarkTask)
    (content : String) (henv : env t = ⟨Except.ok content, 0⟩) :
    resultForTask cfg env t =
      ⟨0, 0, "failed: float division by zero", none⟩ := by
  unfold resultForTask test_single_model
  rw [henv]
  simp

/-- The probe of `cfgOne`'s single task under a successful one-second call:
two approximate tokens, speed `2`. -/
lemma resultForTask_cfgOne_envOk :
    resultForTask cfgOne envOk ⟨"p", "m", []⟩ =
      ⟨2, 2, "success", some "World!"⟩ := by
  have h1 : count_tokens "Hello" = 1 := by decide
  have h2 : count_tokens "World!" = 1 := by decide
  have hok := test_single_model_ok "Hello" "World!" 1 (by norm_num)
  rw [h1, h2] at hok
  have hval : pyRound2 (((1 + 1 : ℕ) : ℚ) / 1) = 2 := by
    norm_num [pyRound2, roundHalfEven]
  rw [resultForTask]
  show (match test_single_model cfgOne.test_prompt (envOk ⟨"p", "m", []⟩) with
    | Except.ok (speed, tokens, response) =>
        (⟨pyRound2 speed, tokens, "success", some response⟩ : ResultEntry)
    | Except.error e => ⟨0, 0, "failed: " ++ e, none⟩) =
      (⟨2, 2, "success", some "World!"⟩ : ResultEntry)
  rw [show cfgOne.test_prompt = "Hello" from rfl,
    show envOk ⟨"p", "m", []⟩ = ⟨Except.ok "World!", 1⟩ from rfl, hok]
  simpa using hval

/-- The full run over `cfgTwo` under `envMix`: one success and one isolated
failure. -/
lemma run_cfgTwo :
    (run_benchmark cfgTwo envMix (buildTasks cfgTwo)).results =
      [("p1/m1", ⟨2, 2, "success", some "World!"⟩),
       ("p2/m2", ⟨0, 0, "failed: boom", none⟩)] := by
  have hnodup : ((buildTasks cfgTwo).map taskKey).Nodup := by decide
  have ht1 : resultForTask cfgTwo envMix ⟨"p1", "m1", []⟩ =
      ⟨2, 2, "success", some "World!"⟩ := by
    rw [resultForTask_ok cfgTwo envMix ⟨"p1", "m1", []⟩ "World!" 1 rfl
      (by norm_num)]
    have h1 : count_tokens cfgTwo.test_prompt = 1 := by decide
    have h2 : count_tokens "World!" = 1 := by decide
    rw [h1, h2]
    norm_num [pyRound2, roundHalfEven]
  have ht2 : resultForTask cfgTwo envMix ⟨"p2", "m2", []⟩ =
      ⟨0, 0, "failed: boom", none⟩ :=
    resultForTask_error cfgTwo envMix ⟨"p2", "m2", []⟩ "boom" rfl
  show run_results cfgTwo envMix (buildTasks cfgTwo) = _
  rw [run_results_eq_map cfgTwo envMix (buildTasks cfgTwo) hnodup,
    show buildTasks cfgTwo =
      [⟨"p1", "m1", []⟩, ⟨"p2", "m2", []⟩] from rfl]
  simp only [List.map_cons, List.map_nil]
  rw [ht1, ht2]
  rfl

/-- The full run over `cfgDup` under `envOk`: the two tasks collide on the
key `p/m` and the second overwrites the first, leaving a single entry. -/
lemma run_cfgDup :
    (run_benchmark cfgDup envOk (buildTasks cfgDup)).results =
      [("p/m", ⟨2, 2, "success", some "World!"⟩)] := by
  have ht : resultForTask cfgDup envOk ⟨"p", "m", []⟩ =
      ⟨2, 2, "success", some "World!"⟩ := by
    rw [resultForTask_ok cfgDup envOk ⟨"p", "m", []⟩ "World!" 1 rfl
      (by norm_num)]
    have h1 : count_tokens cfgDup.test_prompt = 1 := by decide
    have h2 : count_tokens "World!" = 1 := by decide
    rw [h1, h2]
    norm_num [pyRound2, roundHalfEven]
  show run_results cfgDup envOk (buildTasks cfgDup) = _
  unfold run_results
  rw [show buildTasks cfgDup = [⟨"p", "m", []⟩, ⟨"p", "m", []⟩] from rfl]
  simp only [List.foldl_cons, List.foldl_nil]
  rw [ht, show taskKey (⟨"p", "m", []⟩ : BenchmarkTask) = "p/m" from rfl]
  simp [dictInsert]

/-- The full run over `cfgOne` when the single probe succeeds but the
measured duration is `-1`: the entry is a `success` with speed `-2`. -/
lemma run_cfgOne_envNeg :
    (run_benchmark cfgOne envNeg (buildTasks cfgOne)).results =
      [("p/m", ⟨-2, 2, "success", some "World!"⟩)] := by
  have ht : resultForTask cfgOne envNeg ⟨"p", "m", []⟩ =
      ⟨-2, 2, "success", some "World!"⟩ := by
    rw [resultForTask_ok cfgOne envNeg ⟨"p", "m", []⟩ "World!" (-1) rfl
      (by norm_num)]
    have h1 : count_tokens cfgOne.test_prompt = 1 := by decide
    have h2 : count_tokens "World!" = 1 := by decide
    rw [h1, h2]
    norm_num [pyRound2, roundHalfEven]
  show run_results cfgOne envNeg (buildTasks cfgOne) = _
  unfold run_results
  rw [show buildTasks cfgOne = [⟨"p", "m", []⟩] from rfl]
  simp only [List.foldl_cons, List.foldl_nil]
  rw [ht, show taskKey (⟨"p", "m", []⟩ : BenchmarkTask) = "p/m" from rfl]
  simp [dictInsert]

/-- The completion-loop body takes exactly one of two shapes: the success
entry of the probe's measurement, or the zeroed failure entry of the
probe's exception. -/
lemma result_branches (cfg : Config) (env : Env) (t : BenchmarkTask) :
    (∃ d tk c, test_single_model cfg.test_prompt (env t) =
        Except.ok (d, tk, c) ∧
      resultForTask cfg env t = ⟨pyRound2 d, tk, "success", some c⟩) ∨
    (∃ m, test_single_model cfg.test_prompt (env t) = Except.error m ∧
      resultForTask cfg env t = ⟨0, 0, "failed: " ++ m, none⟩) := by
  cases htm : test_single_model cfg.test_prompt (env t) with
  | error m =>
      right
      exact ⟨m, rfl, by unfold resultForTask; rw [htm]⟩
  | ok val =>
      obtain ⟨d, tk, c⟩ := val
      left
      exact ⟨d, tk, c, rfl, by unfold resultForTask; rw [htm]⟩

/-- The full run over `cfgOne` when the single probe succeeds but the
measured duration is exactly `0`: the `ZeroDivisionError` is caught by the
runner and recorded as a failure entry. -/
lemma run_cfgOne_envZero :
    (run_benchmark cfgOne envZero (buildTasks cfgOne)).results =
      [("p/m", ⟨0, 0, "failed: float division by zero", none⟩)] := by
  have ht : resultForTask cfgOne envZero ⟨"p", "m", []⟩ =
      ⟨0, 0, "failed: float division by zero", none⟩ :=
    resultForTask_zero cfgOne envZero ⟨"p", "m", []⟩ "World!" rfl
  show run_results cfgOne envZero (buildTasks cfgOne) = _
  unfold run_results
  rw [show buildTasks cfgOne = [⟨"p", "m", []⟩] from rfl]
  simp only [List.foldl_cons, List.foldl_nil]
  rw [ht, show taskKey (⟨"p", "m", []⟩ : BenchmarkTask) = "p/m" from rfl]
  simp [dictInsert]

/-! ### The claims -/

/-- C2: if any two providers in the loaded configuration share the same
name, initialization fails with a configuration error before any client is
constructed (the error branch of `benchInit` yields no client registry),
and the error message joins exactly the duplicated names; with all names
distinct, initialization does not raise this error and yields the client
registry. -/
theorem thm_C2 (cfg : Config) :
    (¬ (providerNames cfg).Nodup ↔
      benchInit cfg =
        Except.error ("发现重复的provider名称: " ++
          String.intercalate ", " (duplicateNames cfg))) ∧
    (∀ d, d ∈ duplicateNames cfg ↔ 1 < (providerNames cfg).count d) ∧
    ((providerNames cfg).Nodup →
      benchInit cfg =
        Except.ok
          (cfg.providers.map (fun p => (p.name, ⟨p.api_key, p.base_url⟩)))) := by
  have hlen : (providerNames cfg).dedup.length = (providerNames cfg).length ↔
      (providerNames cfg).Nodup := by
    constructor
    · intro h
      have hs : (providerNames cfg).dedup.Sublist (providerNames cfg) :=
        List.dedup_sublist _
      have heq := hs.eq_of_length h
      rw [← heq]
      exact (providerNames cfg).nodup_dedup
    · intro h
      rw [List.dedup_eq_self.2 h]
  have hinit_ok : (providerNames cfg).Nodup →
      benchInit cfg =
        Except.ok
          (cfg.providers.map (fun p => (p.name, ⟨p.api_key, p.base_url⟩))) := by
    intro h
    have hne : ¬ ((providerNames cfg).length ≠ (providerNames cfg).dedup.length) := by
      intro hcontra
      exact hcontra (hlen.2 h).symm
    simp only [benchInit]
    rw [if_neg hne]
  have hinit_err : ¬ (providerNames cfg).Nodup →
      benchInit cfg =
        Except.error ("发现重复的provider名称: " ++
          String.intercalate ", " (duplicateNames cfg)) := by
    intro h
    have hne : (providerNames cfg).length ≠ (providerNames cfg).dedup.length := by
      intro heq
      exact h (hlen.1 heq.symm)
    simp only [benchInit]
    rw [if_pos hne]
  refine ⟨⟨hinit_err, ?_⟩, ?_, hinit_ok⟩
  · intro heq hnd
    rw [hinit_ok hnd] at heq
    exact Except.noConfusion heq
  · intro d
    unfold duplicateNames
    rw [List.mem_dedup, List.mem_filter]
    constructor
    · intro h
      simpa using h.2
    · intro h
      have hmem : d ∈ providerNames cfg := by
        by_contra hmem
        rw [List.count_eq_zero_of_not_mem hmem] at h
        omega
      exact ⟨hmem, by simpa using h⟩

/-- C2 witness: a configuration whose two providers are both named `p1` is
rejected with a message listing `p1`, while `cfgTwo`'s distinct names are
accepted and produce the registry. -/
theorem thm_C2_witness :
    benchInit cfgDupName =
      Except.error ("发现重复的provider名称: " ++ "p1") ∧
    benchInit cfgTwo =
      Except.ok [("p1", ⟨"k1", none⟩), ("p2", ⟨"k2", some "u"⟩)] := by
  constructor
  · rw [(thm_C2 cfgDupName).1.mp (by decide)]
    rfl
  · rw [(thm_C2 cfgTwo).2.2 (by decide)]
    rfl

/-- C1 (amended): when no provider lists the same model name twice (so the
task keys are pairwise distinct), the result mapping of `run_benchmark` has
exactly `Σ Mi` entries, its keys are pairwise distinct, and every task's
key maps to that task's entry — whatever the completion order. -/
theorem thm_C1 (cfg : Config) (env : Env) (order : List BenchmarkTask)
    (hperm : order.Perm (buildTasks cfg))
    (hnodup : ((buildTasks cfg).map taskKey).Nodup) :
    (run_benchmark cfg env order).results.length =
      (cfg.providers.map (fun p => p.models.length)).sum ∧
    ((run_benchmark cfg env order).results.map Prod.fst).Nodup ∧
    (run_benchmark cfg env order).results.map Prod.fst = order.map taskKey ∧
    ∀ t ∈ buildTasks cfg,
      (taskKey t, resultForTask cfg env t) ∈
        (run_benchmark cfg env order).results := by
  have horder : (order.map taskKey).Nodup :=
    ((hperm.map taskKey).nodup_iff).2 hnodup
  have hre : (run_benchmark cfg env order).results =
      order.map (fun t => (taskKey t, resultForTask cfg env t)) :=
    run_results_eq_map cfg env order horder
  have hkeys : (run_benchmark cfg env order).results.map Prod.fst =
      order.map taskKey := by
    rw [hre, List.map_map]
    rfl
  refine ⟨?_, ?_, hkeys, ?_⟩
  · rw [hre, List.length_map, hperm.length_eq]
    unfold buildTasks
    rw [List.length_flatMap]
    congr 1
    refine List.map_congr_left (fun p _ => ?_)
    simp
  · rw [hkeys]
    exact horder
  · intro t ht
    rw [hre]
    exact List.mem_map.2 ⟨t, hperm.mem_iff.2 ht, rfl⟩

/-- C1 counterexample: `cfgDup` has one provider listing the model name `m`
twice, so `Σ Mi = 2`; the two tasks collide on the key `p/m` and the result
mapping of `run_benchmark` has a single entry, not `Σ Mi`. -/
theorem thm_C1_counterexample :
    (cfgDup.providers.map (fun p => p.models.length)).sum = 2 ∧
    (run_benchmark cfgDup envOk (buildTasks cfgDup)).results.length = 1 ∧
    ¬ ((run_benchmark cfgDup envOk (buildTasks cfgDup)).results.length =
        (cfgDup.providers.map (fun p => p.models.length)).sum) := by
  refine ⟨by decide, ?_, ?_⟩
  · rw [run_cfgDup]
    rfl
  · intro h
    rw [run_cfgDup] at h
    have h2 : (cfgDup.providers.map (fun p => p.models.length)).sum = 2 := by
      decide
    rw [h2] at h
    simp at h

/-- C1 witness: for `cfgTwo` (two providers, one model each, distinct keys)
the run has exactly `Σ Mi = 2` entries. -/
theorem thm_C1_witness :
    (run_benchmark cfgTwo envMix (buildTasks cfgTwo)).results.length =
      (cfgTwo.providers.map (fun p => p.models.length)).sum :=
  (thm_C1 cfgTwo envMix (buildTasks cfgTwo) (List.Perm.refl _) (by decide)).1

/-- C3: a task whose probe raises an error with message `msg` is recorded
as the entry `{speed := 0, tokens := 0, status := "failed: " ++ msg}` with
no response; the runner itself is total (it returns a result mapping, the
exception does not propagate), and every sibling task still receives an
entry under its own key. -/
theorem thm_C3 (cfg : Config) (env : Env) (order : List BenchmarkTask)
    (hperm : order.Perm (buildTasks cfg))
    (hnodup : ((buildTasks cfg).map taskKey).Nodup)
    (t : BenchmarkTask) (ht : t ∈ buildTasks cfg) (msg : String)
    (herr : (env t).outcome = Except.error msg) :
    (taskKey t, (⟨0, 0, "failed: " ++ msg, none⟩ : ResultEntry)) ∈
      (run_benchmark cfg env order).results ∧
    ∀ t' ∈ buildTasks cfg, ∃ e : ResultEntry,
      (taskKey t', e) ∈ (run_benchmark cfg env order).results := by
  have horder : (order.map taskKey).Nodup :=
    ((hperm.map taskKey).nodup_iff).2 hnodup
  have hre := run_results_eq_map cfg env order horder
  constructor
  · have hbase : (taskKey t, resultForTask cfg env t) ∈
        run_results cfg env order := by
      rw [hre]
      exact List.mem_map.2 ⟨t, hperm.mem_iff.2 ht, rfl⟩
    rwa [resultForTask_error cfg env t msg herr] at hbase
  · intro t' ht'
    exact run_results_key_total cfg env order t' (hperm.mem_iff.2 ht')

/-- C3 witness: in `cfgTwo` under `envMix`, the probe of `p2/m2` raises
`boom`; its entry is the zeroed failure entry and the sibling `p1/m1` still
has an entry. -/
theorem thm_C3_witness :
    (taskKey ⟨"p2", "m2", []⟩,
      (⟨0, 0, "failed: boom", none⟩ : ResultEntry)) ∈
      (run_benchmark cfgTwo envMix (buildTasks cfgTwo)).results ∧
    ∃ e : ResultEntry,
      (taskKey ⟨"p1", "m1", []⟩, e) ∈
        (run_benchmark cfgTwo envMix (buildTasks cfgTwo)).results := by
  have h := thm_C3 cfgTwo envMix (buildTasks cfgTwo) (List.Perm.refl _)
    (by decide) ⟨"p2", "m2", []⟩ (by decide) "boom" rfl
  exact ⟨h.1, h.2 ⟨"p1", "m1", []⟩ (by decide)⟩

/-- C4: the prober approximates the token count of any text as its
character count under integer division by 4, applies it to both prompt and
completion, sums them, and divides by the duration; in particular the probe
with prompt `Hello`, completion `World!` and duration `2` yields 2 tokens
and speed `1`. -/
theorem thm_C4 :
    (∀ text : String, count_tokens text = text.length / 4) ∧
    (∀ (prompt content : String) (d : ℚ), d ≠ 0 →
      test_single_model prompt ⟨Except.ok content, d⟩ =
        Except.ok
          (((count_tokens prompt + count_tokens content : ℕ) : ℚ) / d,
            count_tokens prompt + count_tokens content, content)) ∧
    test_single_model "Hello" ⟨Except.ok "World!", 2⟩ =
      Except.ok (1, 2, "World!") := by
  refine ⟨fun _ => rfl, fun p c d hd => test_single_model_ok p c d hd, ?_⟩
  rw [test_single_model_ok "Hello" "World!" 2 (by norm_num)]
  have h1 : count_tokens "Hello" = 1 := by decide
  have h2 : count_tokens "World!" = 1 := by decide
  rw [h1, h2]
  have h3 : (((1 + 1 : ℕ) : ℚ) / 2) = 1 := by norm_num
  rw [h3]

/-- C4 witness: the general success equation applied at prompt `Hi!?`
(4 chars, 1 token), completion `yo` (2 chars, 0 tokens), duration 4. -/
theorem thm_C4_witness :
    test_single_model "Hi!?" ⟨Except.ok "yo", 4⟩ =
      Except.ok (1 / 4, 1, "yo") := by
  rw [thm_C4.2.1 "Hi!?" "yo" 4 (by norm_num)]
  have h1 : count_tokens "Hi!?" = 1 := by decide
  have h2 : count_tokens "yo" = 0 := by decide
  rw [h1, h2]
  have h3 : (((1 + 0 : ℕ) : ℚ) / 4) = 1 / 4 := by norm_num
  rw [h3]

/-- C5 (amended): the speed computation itself is unguarded. A successful
call measured at duration exactly `0` raises `ZeroDivisionError` inside the
prober, which the runner's generic per-task handler catches and records as
a zeroed `failed: float division by zero` entry (so no worker crashes and
the run completes); a successful call measured at a negative duration is
not treated as an error at all: the entry is recorded as a `success`
carrying the negative speed, neither clamped nor failed. -/
theorem thm_C5 (cfg : Config) (env : Env) (order : List BenchmarkTask)
    (hperm : order.Perm (buildTasks cfg))
    (hnodup : ((buildTasks cfg).map taskKey).Nodup)
    (t : BenchmarkTask) (ht : t ∈ buildTasks cfg) (content : String)
    (hout : (env t).outcome = Except.ok content) :
    ((env t).duration = 0 →
      (taskKey t,
        (⟨0, 0, "failed: float division by zero", none⟩ : ResultEntry)) ∈
        (run_benchmark cfg env order).results) ∧
    ((env t).duration < 0 →
      (taskKey t,
        (⟨pyRound2
            (((count_tokens cfg.test_prompt + count_tokens content : ℕ) : ℚ)
              / (env t).duration),
          count_tokens cfg.test_prompt + count_tokens content, "success",
          some content⟩ : ResultEntry)) ∈
        (run_benchmark cfg env order).results) := by
  have horder : (order.map taskKey).Nodup :=
    ((hperm.map taskKey).nodup_iff).2 hnodup
  have hre := run_results_eq_map cfg env order horder
  have hbase : (taskKey t, resultForTask cfg env t) ∈
      run_results cfg env order := by
    rw [hre]
    exact List.mem_map.2 ⟨t, hperm.mem_iff.2 ht, rfl⟩
  have heta : env t = ⟨(env t).outcome, (env t).duration⟩ := rfl
  constructor
  · intro hd
    have henv : env t = ⟨Except.ok content, 0⟩ := by
      rw [heta, hout, hd]
    rwa [resultForTask_zero cfg env t content henv] at hbase
  · intro hd
    have henv : env t = ⟨Except.ok content, (env t).duration⟩ := by
      rw [heta, hout]
    rwa [resultForTask_ok cfg env t content ((env t).duration) henv
      (ne_of_lt hd)] at hbase

/-- C5 counterexample: under `envNeg` the single probe of `cfgOne` succeeds
with measured duration `-1`; its recorded entry has status `success` and
speed `-2 < 0`, so the degenerate measurement is neither treated as a task
failure nor clamped. -/
theorem thm_C5_counterexample :
    ∃ e : ResultEntry,
      ("p/m", e) ∈ (run_benchmark cfgOne envNeg (buildTasks cfgOne)).results ∧
      e.status = "success" ∧ e.speed < 0 ∧
      ¬ ((∃ m, e.status = "failed: " ++ m) ∨ 0 ≤ e.speed) := by
  refine ⟨⟨-2, 2, "success", some "World!"⟩, ?_, rfl, by norm_num, ?_⟩
  · rw [run_cfgOne_envNeg]
    simp
  · rintro (⟨m, hm⟩ | h)
    · exact failed_ne_success m hm.symm
    · norm_num at h

/-- C5 witness: under `envZero` the zero-duration probe of `cfgOne` is
recorded as the `failed: float division by zero` entry. -/
theorem thm_C5_witness :
    (taskKey ⟨"p", "m", []⟩,
      (⟨0, 0, "failed: float division by zero", none⟩ : ResultEntry)) ∈
      (run_benchmark cfgOne envZero (buildTasks cfgOne)).results :=
  (thm_C5 cfgOne envZero (buildTasks cfgOne) (List.Perm.refl _) (by decide)
    ⟨"p", "m", []⟩ (by decide) "World!" rfl).1 rfl

/-- C6: the run saves exactly one log; its `responses` mapping is built
from the results, every pair of it comes from an entry with status
`success` and carries that entry's response text, and the key of any
non-success entry appears in no pair of it. -/
theorem thm_C6 (cfg : Config) (env : Env) (order : List BenchmarkTask) :
    ∃ log : BenchmarkLog,
      (run_benchmark cfg env order).savedLogs = [log] ∧
      log.responses = responsesOf (run_benchmark cfg env order).results ∧
      (∀ k v, (k, v) ∈ log.responses →
        ∃ e : ResultEntry,
          (k, e) ∈ (run_benchmark cfg env order).results ∧
          e.status = "success" ∧ e.response = some v) ∧
      (∀ k e, (k, e) ∈ (run_benchmark cfg env order).results →
        e.status ≠ "success" → ∀ v, (k, v) ∉ log.responses) := by
  refine ⟨⟨(run_benchmark cfg env order).results,
    responsesOf (run_benchmark cfg env order).results⟩, rfl, rfl, ?_, ?_⟩
  · intro k v hkv
    obtain ⟨p, hp, hpv⟩ := List.mem_map.1 hkv
    have hpf := List.mem_filter.1 hp
    have hsucc : p.2.status = "success" := by
      simpa using hpf.2
    obtain ⟨t, ht, hpt⟩ := run_results_entries cfg env order p hpf.1
    have hresp : ∃ c, p.2.response = some c := by
      rcases result_branches cfg env t with ⟨d, tk, c, _, hres⟩ |
        ⟨m, _, hres⟩
      · exact ⟨c, by rw [hpt, hres]⟩
      · exfalso
        rw [hpt, hres] at hsucc
        exact failed_ne_success m hsucc
    obtain ⟨c, hc⟩ := hresp
    have hk : p.1 = k := congrArg Prod.fst hpv
    have hv : p.2.response.getD "" = v := congrArg Prod.snd hpv
    rw [hc] at hv
    refine ⟨p.2, ?_, hsucc, ?_⟩
    · rw [← hk]
      exact hpf.1
    · rw [hc]
      exact congrArg some hv
  · intro k e hke hne v hkv
    obtain ⟨p, hp, hpv⟩ := List.mem_map.1 hkv
    have hpf := List.mem_filter.1 hp
    have hsucc : p.2.status = "success" := by
      simpa using hpf.2
    have hk : p.1 = k := congrArg Prod.fst hpv
    have hpe : p.2 = e := by
      refine entry_unique_of_nodup_keys (run_results_keys_nodup cfg env order)
        ?_ hke
      rw [← hk]
      exact hpf.1
    rw [hpe] at hsucc
    exact hne hsucc

/-- C6 witness: in `cfgTwo` under `envMix` the saved responses contain the
key `p1/m1`, whose entry is the success carrying `World!`; the theorem
recovers that entry. -/
theorem thm_C6_witness :
    ∃ e : ResultEntry,
      ("p1/m1", e) ∈ (run_benchmark cfgTwo envMix (buildTasks cfgTwo)).results ∧
      e.status = "success" ∧ e.response = some "World!" := by
  obtain ⟨log, hlogs, hresp, hmem, _⟩ := thm_C6 cfgTwo envMix (buildTasks cfgTwo)
  have hkv : ("p1/m1", "World!") ∈ log.responses := by
    rw [hresp, run_cfgTwo]
    decide
  obtain ⟨e, he, hs, hr⟩ := hmem "p1/m1" "World!" hkv
  exact ⟨e, he, hs, hr⟩

/-- C7: with an empty provider list there are no tasks, and `run_benchmark`
returns the empty result mapping (and saves the empty log) without any
error. -/
theorem thm_C7 (cfg : Config) (env : Env) (order : List BenchmarkTask)
    (hempty : cfg.providers = []) (hperm : order.Perm (buildTasks cfg)) :
    (run_benchmark cfg env order).results = [] ∧
    (run_benchmark cfg env order).savedLogs = [⟨[], []⟩] := by
  have htasks : buildTasks cfg = [] := by
    unfold buildTasks
    rw [hempty]
    rfl
  have horder : order = [] := by
    have h := hperm
    rw [htasks] at h
    exact h.eq_nil
  subst horder
  exact ⟨rfl, rfl⟩

/-- C7 witness: the concrete empty configuration. -/
theorem thm_C7_witness :
    (run_benchmark cfgEmpty envOk []).results = [] :=
  (thm_C7 cfgEmpty envOk [] rfl (List.Perm.refl _)).1

/-- C9: every run saves exactly one log, and that log holds exactly the
returned result mapping (and its successful responses) — persistence is
unconditional, also for the empty task list. -/
theorem thm_C9 (cfg : Config) (env : Env) (order : List BenchmarkTask) :
    (run_benchmark cfg env order).savedLogs =
      [⟨(run_benchmark cfg env order).results,
        responsesOf (run_benchmark cfg env order).results⟩] ∧
    (run_benchmark cfg env order).savedLogs.length = 1 :=
  ⟨rfl, rfl⟩

/-- C10: every entry of the result mapping either has status `success` and
then its `response` field holds the completion text of the probe it came
from, or has a `failed: `-prefixed status and then has no `response` field
at all. -/
theorem thm_C10 (cfg : Config) (env : Env) (order : List BenchmarkTask) :
    ∀ p ∈ (run_benchmark cfg env order).results,
      (p.2.status = "success" →
        ∃ c : String, p.2.response = some c ∧
          ∃ t ∈ order, ∃ d : ℚ, ∃ tk : ℕ,
            test_single_model cfg.test_prompt (env t) =
              Except.ok (d, tk, c)) ∧
      (p.2.status ≠ "success" →
        (∃ m, p.2.status = "failed: " ++ m) ∧ p.2.response = none) := by
  intro p hp
  obtain ⟨t, ht, hpt⟩ := run_results_entries cfg env order p hp
  rcases result_branches cfg env t with ⟨d, tk, c, htm, hres⟩ | ⟨m, htm, hres⟩
  · constructor
    · intro _
      refine ⟨c, ?_, t, ht, d, tk, htm⟩
      rw [hpt, hres]
    · intro hne
      exfalso
      apply hne
      rw [hpt, hres]
  · constructor
    · intro hs
      exfalso
      rw [hpt, hres] at hs
      exact failed_ne_success m hs
    · intro _
      exact ⟨⟨m, by rw [hpt, hres]⟩, by rw [hpt, hres]⟩

/-- C10 witness: the success entry of `p1/m1` in the run over `cfgTwo`
carries a response. -/
theorem thm_C10_witness :
    ∃ c : String,
      ((⟨2, 2, "success", some "World!"⟩ : ResultEntry)).response = some c := by
  have hmem : ("p1/m1", (⟨2, 2, "success", some "World!"⟩ : ResultEntry)) ∈
      (run_benchmark cfgTwo envMix (buildTasks cfgTwo)).results := by
    rw [run_cfgTwo]
    simp
  obtain ⟨c, hc, _⟩ :=
    (thm_C10 cfgTwo envMix (buildTasks cfgTwo) _ hmem).1 rfl
  exact ⟨c, hc⟩
